import Mathlib

/-!
Verification development for the options-data persistence subsystem of
trade-matrix-options.

The relational table `options_data` is modelled as a `List StoredRow`
(one element per row, in physical order).  Timestamps and decimals are
modelled as rationals.  Row ids assigned by the `SERIAL` column are not
modelled; per-record upsert outcomes are modelled by their `action`
string alone.  SQL `NULL` is modelled by `Option`.

Each definition is a shallow embedding of a function of the source:
`insertOptionsData`, `getLatestOptionsData`, `getAggregatedOptionsData`,
`getAggregatedOptionsDataMultiSymbol`, `cleanupOldOptionsData`,
`cleanupAllOldOptionsData` from the database service, and `cleanupPOST`
for the POST handler of the cleanup route.
-/

/-- An upstream quote record as handed to `insertOptionsData`.
JavaScript `null`/`undefined` fields are modelled by `Option`
(`symbol` is the full option symbol, e.g. "AAPL 250919P232.5";
`strike` is `none` when `parseFloat` of the raw value would be `NaN`). -/
structure OptionRecord where
  symbol : Option String
  expiration_date : Option ℚ
  strike : Option ℚ
  expiration_type : String
  ask : Option ℚ
  bid : Option ℚ
  mid : Option ℚ
  close : Option ℚ
  high : Option ℚ
  last : Option ℚ
  low : Option ℚ
  open_ : Option ℚ
  previous_close : Option ℚ
  option_type : String
  timestamp : ℚ
deriving DecidableEq, Repr

/-- One row of the `options_data` table (the SERIAL `id` and the
`created_at` column are not modelled; no claim mentions them). -/
structure StoredRow where
  symbol : String
  expiration_date : ℚ
  strike : ℚ
  expiration_type : String
  ask : Option ℚ
  bid : Option ℚ
  mid : Option ℚ
  close : Option ℚ
  high : Option ℚ
  last : Option ℚ
  low : Option ℚ
  open_ : Option ℚ
  previous_close : Option ℚ
  option_type : String
  option_symbol : String
  timestamp : ℚ
deriving DecidableEq, Repr

/-- Embeds the JavaScript expression `v ? parseFloat(v) : null` applied to a
numeric-or-null value: `0` is falsy, so a supplied zero becomes `null`. -/
def jsPrice : Option ℚ → Option ℚ
  | none => none
  | some x => if x = 0 then none else some x

/-- Embeds `option.symbol ? option.symbol.split(' ')[0] : null`
(the empty string is falsy in JavaScript; on a non-empty string,
`split(' ')[0]` is exactly the characters before the first space). -/
def underlyingOf : Option String → Option String
  | none => none
  | some s =>
    if s = "" then none
    else some (String.mk (s.toList.takeWhile (fun c => c ≠ ' ')))

/-- A record violates a row-level constraint of the `options_data` schema:
a NULL in a NOT NULL column (`symbol`, `expiration_date`, `strike`,
`option_symbol`) or a CHECK-constraint failure on `expiration_type`
(Weekly or Monthly) or `option_type` (Put or Call).  Such a record makes
the upsert statement raise an error. -/
def rowError (o : OptionRecord) : Bool :=
  (underlyingOf o.symbol).isNone || o.symbol.isNone ||
  o.expiration_date.isNone || o.strike.isNone ||
  !(o.expiration_type == "Weekly" || o.expiration_type == "Monthly") ||
  !(o.option_type == "Put" || o.option_type == "Call")

/-- The row built by the INSERT arm of the upsert statement. -/
def toStoredRow (o : OptionRecord) : StoredRow :=
  { symbol := (underlyingOf o.symbol).getD ""
    expiration_date := o.expiration_date.getD 0
    strike := o.strike.getD 0
    expiration_type := o.expiration_type
    ask := jsPrice o.ask
    bid := jsPrice o.bid
    mid := jsPrice o.mid
    close := jsPrice o.close
    high := jsPrice o.high
    last := jsPrice o.last
    low := jsPrice o.low
    open_ := jsPrice o.open_
    previous_close := jsPrice o.previous_close
    option_type := o.option_type
    option_symbol := o.symbol.getD ""
    timestamp := o.timestamp }

/-- The DO UPDATE arm of `ON CONFLICT (option_symbol)`: it sets the nine
price columns, `option_symbol` and `timestamp` from EXCLUDED and leaves
`symbol`, `expiration_date`, `strike`, `expiration_type`, `option_type`
untouched. -/
def applyUpdate (r : StoredRow) (o : OptionRecord) : StoredRow :=
  { r with
    ask := jsPrice o.ask
    bid := jsPrice o.bid
    mid := jsPrice o.mid
    close := jsPrice o.close
    high := jsPrice o.high
    last := jsPrice o.last
    low := jsPrice o.low
    open_ := jsPrice o.open_
    previous_close := jsPrice o.previous_close
    option_symbol := o.symbol.getD ""
    timestamp := o.timestamp }

/-- One execution of the upsert statement for one record against the
current table; `true` in the result is the `(xmax = 0) AS inserted` flag. -/
def upsertStep (db : List StoredRow) (o : OptionRecord) :
    Except String (List StoredRow × Bool) :=
  if rowError o then .error "constraint violation"
  else
    let key := o.symbol.getD ""
    if db.any (fun r => r.option_symbol == key) then
      .ok (db.map (fun r => if r.option_symbol == key then applyUpdate r o else r), false)
    else
      .ok (db ++ [toStoredRow o], true)

/-- The `for (const option of optionsData)` loop inside the transaction:
the working table, then inserted count, updated count and the per-record
`action` strings, stopping at the first row-level error. -/
def runBatch (db : List StoredRow) :
    List OptionRecord → Except String (List StoredRow × ℕ × ℕ × List String)
  | [] => .ok (db, 0, 0, [])
  | o :: rest =>
    match upsertStep db o with
    | .error e => .error e
    | .ok (db1, inserted) =>
      match runBatch db1 rest with
      | .error e => .error e
      | .ok (db2, i, u, rs) =>
        .ok (db2, (if inserted then i + 1 else i), (if inserted then u else u + 1),
             (if inserted then "inserted" else "updated") :: rs)

/-- The summary object returned by a successful `insertOptionsData`. -/
structure UpsertSummary where
  success : Bool
  totalProcessed : ℕ
  insertedCount : ℕ
  updatedCount : ℕ
  results : List String
deriving DecidableEq, Repr

/-- Embeds `OptionsDatabase.insertOptionsData`: the whole batch runs in one
transaction; COMMIT on success, ROLLBACK (the table reverts to its initial
state) and the error is rethrown on any row-level failure. -/
def insertOptionsData (db : List StoredRow) (optionsData : List OptionRecord) :
    List StoredRow × Except String UpsertSummary :=
  match runBatch db optionsData with
  | .ok (db2, i, u, rs) =>
    (db2, .ok { success := true, totalProcessed := rs.length,
                insertedCount := i, updatedCount := u, results := rs })
  | .error e => (db, .error e)

/-- The ordering of `ORDER BY timestamp DESC, expiration_date, strike`
in `getLatestOptionsData`. -/
def latestOrder (a b : StoredRow) : Prop :=
  b.timestamp < a.timestamp ∨
    (a.timestamp = b.timestamp ∧
      (a.expiration_date < b.expiration_date ∨
        (a.expiration_date = b.expiration_date ∧ a.strike ≤ b.strike)))

instance : DecidableRel latestOrder := fun a b => by
  unfold latestOrder; infer_instance

theorem latestOrder_total : ∀ a b : StoredRow, latestOrder a b ∨ latestOrder b a := by
  intro a b
  unfold latestOrder
  rcases lt_trichotomy a.timestamp b.timestamp with h | h | h
  · right; left; exact h
  · rcases lt_trichotomy a.expiration_date b.expiration_date with h2 | h2 | h2
    · left; right; exact ⟨h, Or.inl h2⟩
    · rcases le_total a.strike b.strike with h3 | h3
      · left; right; exact ⟨h, Or.inr ⟨h2, h3⟩⟩
      · right; right; exact ⟨h.symm, Or.inr ⟨h2.symm, h3⟩⟩
    · right; right; exact ⟨h.symm, Or.inl h2⟩
  · left; left; exact h

theorem latestOrder_trans :
    ∀ a b c : StoredRow, latestOrder a b → latestOrder b c → latestOrder a c := by
  intro a b c hab hbc
  unfold latestOrder at *
  rcases hab with h1 | ⟨h1, h1'⟩
  · rcases hbc with h2 | ⟨h2, _⟩
    · exact Or.inl (h2.trans h1)
    · exact Or.inl (h2 ▸ h1)
  · rcases hbc with h2 | ⟨h2, h2'⟩
    · exact Or.inl (by rw [h1]; exact h2)
    · refine Or.inr ⟨h1.trans h2, ?_⟩
      rcases h1' with h3 | ⟨h3, h3'⟩
      · rcases h2' with h4 | ⟨h4, _⟩
        · exact Or.inl (h3.trans h4)
        · exact Or.inl (h4 ▸ h3)
      · rcases h2' with h4 | ⟨h4, h4'⟩
        · exact Or.inl (h3 ▸ h4)
        · exact Or.inr ⟨h3.trans h4, h3'.trans h4'⟩

instance : IsTotal StoredRow latestOrder := ⟨latestOrder_total⟩
instance : IsTrans StoredRow latestOrder := ⟨latestOrder_trans⟩

/-- Embeds `OptionsDatabase.getLatestOptionsData`: rows of the symbol,
ordered by `timestamp DESC, expiration_date, strike`, `LIMIT` applied;
the JavaScript default for `limit` is 100. -/
def getLatestOptionsData (db : List StoredRow) (symbol : String)
    (limit : ℕ := 100) : List StoredRow :=
  ((db.filter (fun r => r.symbol == symbol)).insertionSort latestOrder).take limit

/-- Lexicographic order on `(expiration_date, strike)` group keys,
for `ORDER BY expiration_date, strike`. -/
def keyOrder (p q : ℚ × ℚ) : Prop :=
  p.1 < q.1 ∨ (p.1 = q.1 ∧ p.2 ≤ q.2)

instance : DecidableRel keyOrder := fun p q => by
  unfold keyOrder; infer_instance

/-- The WHERE clause of `getAggregatedOptionsData`:
`symbol = $1 AND expiration_date BETWEEN $2 AND $3 AND mid IS NOT NULL`. -/
def aggPred (symbol : String) (startDate endDate : ℚ) (r : StoredRow) : Bool :=
  r.symbol == symbol && decide (startDate ≤ r.expiration_date) &&
    decide (r.expiration_date ≤ endDate) && r.mid.isSome

/-- The WHERE clause of `getAggregatedOptionsDataMultiSymbol`:
`symbol IN (...) AND expiration_date BETWEEN ... AND mid IS NOT NULL`. -/
def aggPredMulti (symbols : List String) (startDate endDate : ℚ) (r : StoredRow) : Bool :=
  symbols.contains r.symbol && decide (startDate ≤ r.expiration_date) &&
    decide (r.expiration_date ≤ endDate) && r.mid.isSome

/-- One output row of the aggregation queries (the `symbols` string of the
multi-symbol variant is carried separately). -/
structure AggregateRow where
  expiration_date : ℚ
  strike : ℚ
  call_mid_price : ℚ
  put_mid_price : ℚ
  total_mid_price : ℚ
  option_count : ℕ
  call_count : ℕ
  put_count : ℕ
deriving DecidableEq, Repr

/-- Distinct `(expiration_date, strike)` group keys of the filtered rows,
in `ORDER BY expiration_date, strike` order. -/
def groupKeys (rows : List StoredRow) : List (ℚ × ℚ) :=
  ((rows.map (fun r => (r.expiration_date, r.strike))).dedup).insertionSort keyOrder

/-- The aggregate functions of one GROUP BY group. -/
def aggregateGroup (rows : List StoredRow) (k : ℚ × ℚ) : AggregateRow :=
  let g := rows.filter (fun r => r.expiration_date == k.1 && r.strike == k.2)
  { expiration_date := k.1
    strike := k.2
    call_mid_price := (g.map (fun r => if r.option_type == "Call" then r.mid.getD 0 else 0)).sum
    put_mid_price := (g.map (fun r => if r.option_type == "Put" then r.mid.getD 0 else 0)).sum
    total_mid_price := (g.map (fun r => r.mid.getD 0)).sum
    option_count := g.length
    call_count := g.countP (fun r => r.option_type == "Call")
    put_count := g.countP (fun r => r.option_type == "Put") }

/-- Embeds `OptionsDatabase.getAggregatedOptionsData`. -/
def getAggregatedOptionsData (db : List StoredRow) (symbol : String)
    (startDate endDate : ℚ) : List AggregateRow :=
  let rows := db.filter (aggPred symbol startDate endDate)
  (groupKeys rows).map (aggregateGroup rows)

/-- The `STRING_AGG(DISTINCT symbol, ', ')` column of one group
(aggregated over distinct underlying symbols, rendered in sorted order). -/
def groupSymbolsAgg (rows : List StoredRow) (k : ℚ × ℚ) : String :=
  let g := rows.filter (fun r => r.expiration_date == k.1 && r.strike == k.2)
  String.intercalate ", " (((g.map (fun r => r.symbol)).dedup).insertionSort (· ≤ ·))

/-- Embeds `OptionsDatabase.getAggregatedOptionsDataMultiSymbol`. -/
def getAggregatedOptionsDataMultiSymbol (db : List StoredRow) (symbols : List String)
    (startDate endDate : ℚ) : List (AggregateRow × String) :=
  let rows := db.filter (aggPredMulti symbols startDate endDate)
  (groupKeys rows).map (fun k => (aggregateGroup rows k, groupSymbolsAgg rows k))

/-- SQL MIN over the timestamps of a group (`NULL` on an empty group). -/
def listMinQ : List ℚ → Option ℚ
  | [] => none
  | x :: xs => some (xs.foldl min x)

/-- SQL MAX over the timestamps of a group (`NULL` on an empty group). -/
def listMaxQ : List ℚ → Option ℚ
  | [] => none
  | x :: xs => some (xs.foldl max x)

/-- One row of the counting query of `cleanupOldOptionsData`
(`GROUP BY symbol` over the rows whose symbol is in the request list). -/
structure SymbolStats where
  symbol : String
  total_records : ℕ
  old_records : ℕ
  oldest_timestamp : Option ℚ
  newest_timestamp : Option ℚ
deriving DecidableEq, Repr

/-- The aggregates of the counting query for one symbol. -/
def mkStats (db : List StoredRow) (cutoff : ℚ) (s : String) : SymbolStats :=
  let rows := db.filter (fun r => r.symbol == s)
  { symbol := s
    total_records := rows.length
    old_records := (rows.filter (fun r => decide (r.timestamp < cutoff))).length
    oldest_timestamp := listMinQ (rows.map (fun r => r.timestamp))
    newest_timestamp := listMaxQ (rows.map (fun r => r.timestamp)) }

/-- The distinct symbols the counting query groups over, in
`ORDER BY symbol` order: symbols of stored rows that are in the request
list.  A requested symbol with no stored rows yields no group. -/
def groupSymbols (db : List StoredRow) (symbols : List String) : List String :=
  (((db.map (fun r => r.symbol)).filter (fun s => symbols.contains s)).dedup).insertionSort (· ≤ ·)

/-- The full result set of the counting query. -/
def countStats (db : List StoredRow) (symbols : List String) (cutoff : ℚ) :
    List SymbolStats :=
  (groupSymbols db symbols).map (mkStats db cutoff)

/-- One element of the `results` array of a cleanup, mirroring the three
object shapes pushed by the source (`oldRecords` is present only on
dry-run would-delete entries, `deletedRecords` on the other two). -/
structure SymbolCleanup where
  symbol : String
  totalRecords : ℕ
  deletedRecords : Option ℕ
  oldRecords : Option ℕ
  keptRecords : ℕ
  oldestTimestamp : Option ℚ
  newestTimestamp : Option ℚ
  action : String
deriving DecidableEq, Repr

/-- The entry pushed in the dry-run branch for a symbol with stale rows. -/
def wouldDeleteEntry (st : SymbolStats) : SymbolCleanup :=
  { symbol := st.symbol
    totalRecords := st.total_records
    deletedRecords := none
    oldRecords := some st.old_records
    keptRecords := st.total_records - st.old_records
    oldestTimestamp := st.oldest_timestamp
    newestTimestamp := st.newest_timestamp
    action := "would_delete" }

/-- The entry pushed in the live branch after deleting a symbol's stale rows. -/
def deletedEntry (st : SymbolStats) (deletedCount : ℕ) : SymbolCleanup :=
  { symbol := st.symbol
    totalRecords := st.total_records
    deletedRecords := some deletedCount
    oldRecords := none
    keptRecords := st.total_records - deletedCount
    oldestTimestamp := st.oldest_timestamp
    newestTimestamp := st.newest_timestamp
    action := "deleted" }

/-- The entry pushed for a symbol with no stale rows. -/
def noActionEntry (st : SymbolStats) : SymbolCleanup :=
  { symbol := st.symbol
    totalRecords := st.total_records
    deletedRecords := some 0
    oldRecords := none
    keptRecords := st.total_records
    oldestTimestamp := st.oldest_timestamp
    newestTimestamp := st.newest_timestamp
    action := "no_action" }

/-- The `for (const row of countResult.rows)` loop of
`cleanupOldOptionsData`: threads the working table through the per-symbol
DELETE statements and accumulates `totalDeleted` and `cleanupResults`. -/
def cleanupLoop (cutoff : ℚ) (dryRun : Bool) :
    List SymbolStats → List StoredRow → List StoredRow × ℕ × List SymbolCleanup
  | [], wdb => (wdb, 0, [])
  | st :: rest, wdb =>
    if 0 < st.old_records then
      if dryRun then
        let out := cleanupLoop cutoff dryRun rest wdb
        (out.1, out.2.1, wouldDeleteEntry st :: out.2.2)
      else
        let deleted :=
          (wdb.filter (fun r => r.symbol == st.symbol && decide (r.timestamp < cutoff))).length
        let wdb1 :=
          wdb.filter (fun r => !(r.symbol == st.symbol && decide (r.timestamp < cutoff)))
        let out := cleanupLoop cutoff dryRun rest wdb1
        (out.1, deleted + out.2.1, deletedEntry st deleted :: out.2.2)
    else
      let out := cleanupLoop cutoff dryRun rest wdb
      (out.1, out.2.1, noActionEntry st :: out.2.2)

/-- The object returned by `cleanupOldOptionsData`. -/
structure CleanupResult where
  success : Bool
  dryRun : Bool
  cutoffTime : ℚ
  keepHours : ℚ
  symbolsProcessed : ℕ
  totalDeleted : ℕ
  results : List SymbolCleanup
deriving DecidableEq, Repr

/-- Embeds `OptionsDatabase.cleanupOldOptionsData`: cutoff is
`now - keepHours` hours (in milliseconds); per-symbol stats are computed
once up front; the loop deletes (live) or merely reports (dry run); the
transaction COMMITs in live mode and ROLLBACKs (table unchanged) in
dry-run mode. -/
def cleanupOldOptionsData (db : List StoredRow) (symbols : List String)
    (keepHours : ℚ := 1/2) (dryRun : Bool := false) (now : ℚ := 0) :
    List StoredRow × CleanupResult :=
  let cutoffTime := now - keepHours * 3600000
  let stats := countStats db symbols cutoffTime
  let out := cleanupLoop cutoffTime dryRun stats db
  let finalDb := if dryRun then db else out.1
  (finalDb,
   { success := true
     dryRun := dryRun
     cutoffTime := cutoffTime
     keepHours := keepHours
     symbolsProcessed := symbols.length
     totalDeleted := out.2.1
     results := out.2.2 })

/-- The `SELECT DISTINCT symbol ... ORDER BY symbol` query of
`cleanupAllOldOptionsData`. -/
def allDistinctSymbols (db : List StoredRow) : List String :=
  ((db.map (fun r => r.symbol)).dedup).insertionSort (· ≤ ·)

/-- The value returned by `cleanupAllOldOptionsData`: either the early
return for an empty table (whose object carries only `success`, `dryRun`,
`symbolsProcessed: 0`, `totalDeleted: 0`, `results: []`) or a full
cleanup result. -/
inductive CleanupAllResult where
  | empty (dryRun : Bool)
  | run (r : CleanupResult)
deriving DecidableEq, Repr

/-- Embeds `OptionsDatabase.cleanupAllOldOptionsData`. -/
def cleanupAllOldOptionsData (db : List StoredRow) (keepHours : ℚ := 1/2)
    (dryRun : Bool := false) (now : ℚ := 0) : List StoredRow × CleanupAllResult :=
  let symbols := allDistinctSymbols db
  if symbols.isEmpty then (db, .empty dryRun)
  else
    let out := cleanupOldOptionsData db symbols keepHours dryRun now
    (out.1, .run out.2)

/-- The parsed JSON body of a POST to the cleanup route; `none` models an
absent key (JavaScript destructuring defaults apply). -/
structure CleanupPOSTBody where
  symbols : Option (List String)
  keepHours : Option ℚ
  dryRun : Option Bool
deriving DecidableEq, Repr

/-- The response of the cleanup route's POST handler, abstracted from the
HTTP envelope: the 400 validation response or a success payload. -/
inductive POSTResult where
  | validationError (msg : String)
  | okSymbols (r : CleanupResult)
  | okAll (r : CleanupAllResult)
deriving DecidableEq, Repr

/-- Embeds the POST handler of the cleanup route: applies the
destructuring defaults, rejects a non-positive `keepHours` with a 400
before acquiring any database connection, otherwise dispatches on the
`symbols` parameter.  The result's final `Bool` records whether any
database operation (read or write) was performed. -/
def cleanupPOST (db : List StoredRow) (body : CleanupPOSTBody) (now : ℚ) :
    List StoredRow × POSTResult × Bool :=
  let keepHours := body.keepHours.getD (1/2)
  let dryRun := body.dryRun.getD false
  if keepHours ≤ 0 then
    (db, .validationError "keepHours must be a positive number", false)
  else
    match body.symbols with
    | some syms =>
      if 0 < syms.length then
        let out := cleanupOldOptionsData db syms keepHours dryRun now
        (out.1, .okSymbols out.2, true)
      else
        let out := cleanupAllOldOptionsData db keepHours dryRun now
        (out.1, .okAll out.2, true)
    | none =>
      let out := cleanupAllOldOptionsData db keepHours dryRun now
      (out.1, .okAll out.2, true)

/-! Helper counts used to state cleanup properties against the table. -/

/-- Number of stored rows of one underlying symbol. -/
def totalCount (db : List StoredRow) (s : String) : ℕ :=
  (db.filter (fun r => r.symbol == s)).length

/-- Number of stored rows of one underlying symbol strictly older than the
cutoff (the rows a cleanup targets). -/
def staleCount (db : List StoredRow) (cutoff : ℚ) (s : String) : ℕ :=
  ((db.filter (fun r => r.symbol == s)).filter (fun r => decide (r.timestamp < cutoff))).length

/-! Sample data for concrete evaluations. -/

/-- A well-formed upstream record. -/
def sampleRec : OptionRecord :=
  { symbol := some "AAPL 250919C230"
    expiration_date := some 100
    strike := some 230
    expiration_type := "Weekly"
    ask := some 2
    bid := some 1
    mid := some (3/2)
    close := none
    high := none
    last := none
    low := none
    open_ := none
    previous_close := none
    option_type := "Call"
    timestamp := 1000 }

/-- A record violating a NOT NULL constraint (`expiration_date` is null). -/
def badRec : OptionRecord := { sampleRec with expiration_date := none }

/-- A second observation of the same contract with new prices. -/
def sampleRec2 : OptionRecord :=
  { sampleRec with ask := some 4, bid := some 3, mid := some (7/2), timestamp := 2000 }

/-- A record supplying a numeric zero in a price field. -/
def zeroAskRec : OptionRecord := { sampleRec with ask := some 0 }

/-- The stored row produced by upserting `sampleRec` into an empty table. -/
def sampleRow : StoredRow := toStoredRow sampleRec

/-! Batch-atomicity lemma for the upsert loop. -/

theorem runBatch_error_of_exists :
    ∀ (recs : List OptionRecord) (wdb : List StoredRow),
      (∃ o ∈ recs, rowError o = true) → ∃ e, runBatch wdb recs = .error e := by
  intro recs
  induction recs with
  | nil => intro wdb h; simp at h
  | cons o rest ih =>
    intro wdb h
    rcases h with ⟨x, hx, hxe⟩
    rcases List.mem_cons.mp hx with rfl | hx'
    · exact ⟨"constraint violation", by simp [runBatch, upsertStep, hxe]⟩
    · cases hstep : upsertStep wdb o with
      | error e => exact ⟨e, by simp [runBatch, hstep]⟩
      | ok p =>
        obtain ⟨db1, inserted⟩ := p
        obtain ⟨e, he⟩ := ih db1 ⟨x, hx', hxe⟩
        exact ⟨e, by simp [runBatch, hstep, he]⟩

/-- Claim C2: if any record of a batch raises a row-level error, the whole
transaction is rolled back (the table is unchanged) and the error is
surfaced; the empty batch succeeds with all counts zero. -/
theorem insertBatch_atomic (db : List StoredRow) (recs : List OptionRecord) :
    ((∃ o ∈ recs, rowError o = true) →
      (insertOptionsData db recs).1 = db ∧
        ∃ e, (insertOptionsData db recs).2 = Except.error e) ∧
    insertOptionsData db [] =
      (db, Except.ok { success := true, totalProcessed := 0, insertedCount := 0,
                       updatedCount := 0, results := [] }) := by
  refine ⟨fun h => ?_, rfl⟩
  obtain ⟨e, he⟩ := runBatch_error_of_exists recs db h
  exact ⟨by simp [insertOptionsData, he], e, by simp [insertOptionsData, he]⟩

/-- Witness for `insertBatch_atomic` at a concrete failing batch. -/
theorem insertBatch_atomic_witness :
    (insertOptionsData [sampleRow] [badRec]).1 = [sampleRow] ∧
      ∃ e, (insertOptionsData [sampleRow] [badRec]).2 = Except.error e :=
  (insertBatch_atomic [sampleRow] [badRec]).1
    ⟨badRec, List.mem_singleton.mpr rfl, by decide⟩

/-- Claim C3: upserting a record whose `option_symbol` already identifies exactly
one stored row updates that row in place: still exactly one row for the
key, the outcome is reported as updated (not inserted), the nine price
fields and the timestamp take the new record's values, and `symbol`,
`expiration_date`, `strike`, `expiration_type`, `option_type` are left
unchanged. -/
theorem upsert_same_key_updates (db : List StoredRow) (o : OptionRecord) (k : String)
    (hk : o.symbol = some k) (hv : rowError o = false)
    (h1 : db.countP (fun r => r.option_symbol == k) = 1) :
    insertOptionsData db [o] =
      (db.map (fun r => if r.option_symbol == k then applyUpdate r o else r),
       Except.ok { success := true, totalProcessed := 1, insertedCount := 0,
                   updatedCount := 1, results := ["updated"] }) ∧
    (db.map (fun r => if r.option_symbol == k then applyUpdate r o else r)).countP
        (fun r => r.option_symbol == k) = 1 ∧
    ∀ r : StoredRow,
      (applyUpdate r o).ask = jsPrice o.ask ∧
      (applyUpdate r o).bid = jsPrice o.bid ∧
      (applyUpdate r o).mid = jsPrice o.mid ∧
      (applyUpdate r o).close = jsPrice o.close ∧
      (applyUpdate r o).high = jsPrice o.high ∧
      (applyUpdate r o).last = jsPrice o.last ∧
      (applyUpdate r o).low = jsPrice o.low ∧
      (applyUpdate r o).open_ = jsPrice o.open_ ∧
      (applyUpdate r o).previous_close = jsPrice o.previous_close ∧
      (applyUpdate r o).timestamp = o.timestamp ∧
      (applyUpdate r o).symbol = r.symbol ∧
      (applyUpdate r o).expiration_date = r.expiration_date ∧
      (applyUpdate r o).strike = r.strike ∧
      (applyUpdate r o).expiration_type = r.expiration_type ∧
      (applyUpdate r o).option_type = r.option_type := by
  have hex : ∃ r ∈ db, (fun r : StoredRow => r.option_symbol == k) r = true := by
    apply List.countP_pos_iff.mp
    omega
  have hany : db.any (fun r => r.option_symbol == k) = true := List.any_eq_true.mpr hex
  refine ⟨?_, ?_, ?_⟩
  · simp [insertOptionsData, runBatch, upsertStep, hv, hk, hany]
  · rw [List.countP_map]
    rw [show (fun r : StoredRow => r.option_symbol == k) ∘
          (fun r => if r.option_symbol == k then applyUpdate r o else r) =
        fun r : StoredRow =>
          (if r.option_symbol == k then applyUpdate r o else r).option_symbol == k from rfl]
    rw [← h1]
    apply List.countP_congr
    intro r _
    by_cases hm : r.option_symbol == k
    · simp [hm, applyUpdate, hk]
    · simp [hm]
  · intro r
    simp [applyUpdate]

/-- Witness for `upsert_same_key_updates`: re-upserting the sample
contract into a table holding exactly its row. -/
theorem upsert_same_key_updates_witness :
    insertOptionsData [sampleRow] [sampleRec2] =
      ([sampleRow].map (fun r =>
          if r.option_symbol == "AAPL 250919C230" then applyUpdate r sampleRec2 else r),
       Except.ok { success := true, totalProcessed := 1, insertedCount := 0,
                   updatedCount := 1, results := ["updated"] }) ∧
    ([sampleRow].map (fun r =>
        if r.option_symbol == "AAPL 250919C230" then applyUpdate r sampleRec2 else r)).countP
        (fun r => r.option_symbol == "AAPL 250919C230") = 1 ∧
    ∀ r : StoredRow,
      (applyUpdate r sampleRec2).ask = jsPrice sampleRec2.ask ∧
      (applyUpdate r sampleRec2).bid = jsPrice sampleRec2.bid ∧
      (applyUpdate r sampleRec2).mid = jsPrice sampleRec2.mid ∧
      (applyUpdate r sampleRec2).close = jsPrice sampleRec2.close ∧
      (applyUpdate r sampleRec2).high = jsPrice sampleRec2.high ∧
      (applyUpdate r sampleRec2).last = jsPrice sampleRec2.last ∧
      (applyUpdate r sampleRec2).low = jsPrice sampleRec2.low ∧
      (applyUpdate r sampleRec2).open_ = jsPrice sampleRec2.open_ ∧
      (applyUpdate r sampleRec2).previous_close = jsPrice sampleRec2.previous_close ∧
      (applyUpdate r sampleRec2).timestamp = sampleRec2.timestamp ∧
      (applyUpdate r sampleRec2).symbol = r.symbol ∧
      (applyUpdate r sampleRec2).expiration_date = r.expiration_date ∧
      (applyUpdate r sampleRec2).strike = r.strike ∧
      (applyUpdate r sampleRec2).expiration_type = r.expiration_type ∧
      (applyUpdate r sampleRec2).option_type = r.option_type :=
  upsert_same_key_updates [sampleRow] sampleRec2 "AAPL 250919C230" rfl (by decide) (by decide)

/-- Claim C6: a cleanup POST whose (destructured) `keepHours` is non-positive is
rejected with the 400 validation response; the table is untouched and no
database operation at all is performed (final `Bool` is `false`). -/
theorem cleanupPOST_validates_keepHours (db : List StoredRow) (body : CleanupPOSTBody)
    (now : ℚ) (h : body.keepHours.getD (1/2) ≤ 0) :
    cleanupPOST db body now =
      (db, POSTResult.validationError "keepHours must be a positive number", false) := by
  simp only [cleanupPOST]
  rw [if_pos h]

/-- Witness for `cleanupPOST_validates_keepHours` at `keepHours = 0`. -/
theorem cleanupPOST_validates_keepHours_witness :
    cleanupPOST [sampleRow] { symbols := some ["AAPL"], keepHours := some 0, dryRun := none } 0 =
      ([sampleRow], POSTResult.validationError "keepHours must be a positive number", false) :=
  cleanupPOST_validates_keepHours [sampleRow]
    { symbols := some ["AAPL"], keepHours := some 0, dryRun := none } 0 (by norm_num)

/-- Claim C8: a stored row whose `mid` is null is excluded from aggregation
entirely: removing it from the table leaves every output of both
aggregation queries (all sums and all counts of every group) unchanged. -/
theorem agg_null_mid_excluded (symbol : String) (symbols : List String)
    (startDate endDate : ℚ) (db1 db2 : List StoredRow) (r : StoredRow)
    (h : r.mid = none) :
    getAggregatedOptionsData (db1 ++ r :: db2) symbol startDate endDate =
      getAggregatedOptionsData (db1 ++ db2) symbol startDate endDate ∧
    getAggregatedOptionsDataMultiSymbol (db1 ++ r :: db2) symbols startDate endDate =
      getAggregatedOptionsDataMultiSymbol (db1 ++ db2) symbols startDate endDate := by
  have e1 : (db1 ++ r :: db2).filter (aggPred symbol startDate endDate) =
      (db1 ++ db2).filter (aggPred symbol startDate endDate) := by
    rw [List.filter_append, List.filter_append,
        List.filter_cons_of_neg (by simp [aggPred, h])]
  have e2 : (db1 ++ r :: db2).filter (aggPredMulti symbols startDate endDate) =
      (db1 ++ db2).filter (aggPredMulti symbols startDate endDate) := by
    rw [List.filter_append, List.filter_append,
        List.filter_cons_of_neg (by simp [aggPredMulti, h])]
  constructor
  · simp only [getAggregatedOptionsData, e1]
  · simp only [getAggregatedOptionsDataMultiSymbol, e2]

/-- A stored row with a null `mid`, strike 230, expiring at time 100. -/
def nullMidRow : StoredRow := { sampleRow with mid := none, option_symbol := "AAPL 250919P230" }

/-- Witness for `agg_null_mid_excluded` at a concrete table. -/
theorem agg_null_mid_excluded_witness :
    getAggregatedOptionsData ([] ++ nullMidRow :: [sampleRow]) "AAPL" 0 200 =
      getAggregatedOptionsData ([] ++ [sampleRow]) "AAPL" 0 200 ∧
    getAggregatedOptionsDataMultiSymbol ([] ++ nullMidRow :: [sampleRow]) ["AAPL"] 0 200 =
      getAggregatedOptionsDataMultiSymbol ([] ++ [sampleRow]) ["AAPL"] 0 200 :=
  agg_null_mid_excluded "AAPL" ["AAPL"] 0 200 [] [sampleRow] nullMidRow rfl

/-- The nine price columns of a stored row, in schema order. -/
def priceFields (r : StoredRow) : List (Option ℚ) :=
  [r.ask, r.bid, r.mid, r.close, r.high, r.last, r.low, r.open_, r.previous_close]

/-- The nine price fields of an upstream record, in schema order. -/
def recPriceFields (o : OptionRecord) : List (Option ℚ) :=
  [o.ask, o.bid, o.mid, o.close, o.high, o.last, o.low, o.open_, o.previous_close]

/-- Claim C9 (amended): each of the nine stored price fields is `jsPrice` of the
supplied field, on both the insert and the update path; `jsPrice` stores
null exactly when the value is absent or zero (JavaScript falsiness), and
stores any nonzero supplied value unchanged. -/
theorem price_fields_stored (o : OptionRecord) (h : rowError o = false) :
    priceFields (toStoredRow o) = (recPriceFields o).map jsPrice ∧
    (∀ old : StoredRow, priceFields (applyUpdate old o) = (recPriceFields o).map jsPrice) ∧
    (∀ x : Option ℚ,
      (jsPrice x = none ↔ x = none ∨ x = some 0) ∧
      ∀ v : ℚ, x = some v → v ≠ 0 → jsPrice x = some v) := by
  refine ⟨rfl, fun old => rfl, fun x => ⟨?_, ?_⟩⟩
  · cases x with
    | none => simp [jsPrice]
    | some v =>
      by_cases hv : v = 0 <;> simp [jsPrice, hv]
  · intro v hx hv
    subst hx
    simp [jsPrice, hv]

/-- Witness for `price_fields_stored` at the sample record. -/
theorem price_fields_stored_witness :
    priceFields (toStoredRow sampleRec) = (recPriceFields sampleRec).map jsPrice ∧
    (∀ old : StoredRow,
      priceFields (applyUpdate old sampleRec) = (recPriceFields sampleRec).map jsPrice) ∧
    (∀ x : Option ℚ,
      (jsPrice x = none ↔ x = none ∨ x = some 0) ∧
      ∀ v : ℚ, x = some v → v ≠ 0 → jsPrice x = some v) :=
  price_fields_stored sampleRec (by decide)

/-- Counterexample to C9 as stated: a record supplying the numeric value 0
in `ask` is stored with a null `ask` (JavaScript treats 0 as falsy), not
with the decimal 0. -/
theorem price_zero_stored_null_cx :
    zeroAskRec.ask = some 0 ∧ rowError zeroAskRec = false ∧
    (insertOptionsData [] [zeroAskRec]).1.map (fun r => r.ask) = [none] := by decide

/-- Claim C7: `getLatestOptionsData` returns the symbol's stored rows sorted
by `timestamp DESC, expiration_date, strike`, truncated to `limit`: the
result extends by a remainder to a sorted permutation of all the symbol's
rows, with every returned row preceding every omitted row in that order
(so it is exactly the top-`limit` rows); the default limit is 100; a zero
limit yields the empty sequence; when the limit covers all rows the
result is a permutation of every stored row of the symbol. -/
theorem getLatest_spec (db : List StoredRow) (symbol : String) (limit : ℕ) :
    List.Sorted latestOrder (getLatestOptionsData db symbol limit) ∧
    (getLatestOptionsData db symbol limit).length =
      min limit (db.filter (fun r => r.symbol == symbol)).length ∧
    (∀ r ∈ getLatestOptionsData db symbol limit, r.symbol = symbol ∧ r ∈ db) ∧
    (∃ rest : List StoredRow,
      (getLatestOptionsData db symbol limit ++ rest).Perm
        (db.filter (fun r => r.symbol == symbol)) ∧
      List.Sorted latestOrder (getLatestOptionsData db symbol limit ++ rest) ∧
      ∀ a ∈ getLatestOptionsData db symbol limit, ∀ b ∈ rest, latestOrder a b) ∧
    ((db.filter (fun r => r.symbol == symbol)).length ≤ limit →
      (getLatestOptionsData db symbol limit).Perm
        (db.filter (fun r => r.symbol == symbol))) ∧
    (limit = 0 → getLatestOptionsData db symbol limit = []) ∧
    getLatestOptionsData db symbol = getLatestOptionsData db symbol 100 := by
  refine ⟨?_, ?_, ?_, ?_, ?_, ?_, rfl⟩
  · exact List.Pairwise.sublist (List.take_sublist _ _)
      (List.sorted_insertionSort latestOrder _)
  · unfold getLatestOptionsData
    rw [List.length_take, (List.perm_insertionSort latestOrder _).length_eq]
  · intro r hr
    have hr1 : r ∈ (db.filter (fun r => r.symbol == symbol)).insertionSort latestOrder :=
      (List.take_sublist _ _).subset hr
    have hr2 : r ∈ db.filter (fun r => r.symbol == symbol) :=
      (List.mem_insertionSort latestOrder).mp hr1
    have hr3 := List.mem_filter.mp hr2
    exact ⟨by simpa using hr3.2, hr3.1⟩
  · have hsorted : List.Sorted latestOrder
        (((db.filter (fun r => r.symbol == symbol)).insertionSort latestOrder).take limit ++
         ((db.filter (fun r => r.symbol == symbol)).insertionSort latestOrder).drop limit) := by
      rw [List.take_append_drop]
      exact List.sorted_insertionSort latestOrder _
    refine ⟨((db.filter (fun r => r.symbol == symbol)).insertionSort latestOrder).drop limit,
      ?_, ?_, ?_⟩
    · show (((db.filter (fun r => r.symbol == symbol)).insertionSort latestOrder).take limit ++
          ((db.filter (fun r => r.symbol == symbol)).insertionSort latestOrder).drop limit).Perm
        (db.filter (fun r => r.symbol == symbol))
      rw [List.take_append_drop]
      exact List.perm_insertionSort latestOrder _
    · exact hsorted
    · exact (List.pairwise_append.mp hsorted).2.2
  · intro hle
    unfold getLatestOptionsData
    rw [List.take_of_length_le
      (by rw [(List.perm_insertionSort latestOrder _).length_eq]; exact hle)]
    exact List.perm_insertionSort latestOrder _
  · intro h0
    subst h0
    rfl

/-- A stored row literal for concrete tables (underlying AAPL, observed at
time 0, `mid` 2). -/
def rowA : StoredRow :=
  { symbol := "AAPL", expiration_date := 100, strike := 230, expiration_type := "Weekly",
    ask := none, bid := none, mid := some 2, close := none, high := none, last := none,
    low := none, open_ := none, previous_close := none, option_type := "Call",
    option_symbol := "AAPL 250919C230", timestamp := 0 }

/-- A second stored row of the same underlying: the put side, null `mid`,
observed at time 10. -/
def rowB : StoredRow :=
  { rowA with
    option_symbol := "AAPL 250919P230"
    option_type := "Put"
    mid := none
    timestamp := 10 }

/-- A third stored row of the same underlying: another call, strike 240,
observed at time 20. -/
def rowC : StoredRow :=
  { rowA with
    option_symbol := "AAPL 250919C240"
    strike := 240
    timestamp := 20 }

/-- Witness for `getLatest_spec`: on a three-row table with observation
times 0 < 10 < 20, `latest("AAPL", 2)` returns exactly the time-20 and
time-10 rows in that order; the permutation hypothesis is discharged at a
covering limit and the zero-limit case at limit 0. -/
theorem getLatest_spec_witness :
    getLatestOptionsData [rowA, rowB, rowC] "AAPL" 2 = [rowC, rowB] ∧
    (∃ rest : List StoredRow,
      (getLatestOptionsData [rowA, rowB, rowC] "AAPL" 2 ++ rest).Perm
        ([rowA, rowB, rowC].filter (fun r => r.symbol == "AAPL")) ∧
      List.Sorted latestOrder (getLatestOptionsData [rowA, rowB, rowC] "AAPL" 2 ++ rest) ∧
      ∀ a ∈ getLatestOptionsData [rowA, rowB, rowC] "AAPL" 2, ∀ b ∈ rest, latestOrder a b) ∧
    (([rowA, rowB].filter (fun r => r.symbol == "AAPL")).length ≤ 5 ∧
      (getLatestOptionsData [rowA, rowB] "AAPL" 5).Perm
        ([rowA, rowB].filter (fun r => r.symbol == "AAPL"))) ∧
    getLatestOptionsData [rowA, rowB, rowC] "AAPL" 0 = [] :=
  ⟨by decide,
   (getLatest_spec [rowA, rowB, rowC] "AAPL" 2).2.2.2.1,
   ⟨by decide, (getLatest_spec [rowA, rowB] "AAPL" 5).2.2.2.2.1 (by decide)⟩,
   (getLatest_spec [rowA, rowB, rowC] "AAPL" 0).2.2.2.2.2.1 rfl⟩

/-! Structural lemmas about the cleanup loop. -/

theorem cleanupLoop_dry (cutoff : ℚ) :
    ∀ (SL : List SymbolStats) (wdb : List StoredRow),
      cleanupLoop cutoff true SL wdb =
        (wdb, 0, SL.map (fun st =>
          if 0 < st.old_records then wouldDeleteEntry st else noActionEntry st)) := by
  intro SL
  induction SL with
  | nil => intro wdb; rfl
  | cons st rest ih =>
    intro wdb
    by_cases h : 0 < st.old_records <;> simp [cleanupLoop, h, ih wdb]

theorem cleanupLoop_totalDeleted (cutoff : ℚ) (dryRun : Bool) :
    ∀ (SL : List SymbolStats) (wdb : List StoredRow),
      (cleanupLoop cutoff dryRun SL wdb).2.1 =
        ((cleanupLoop cutoff dryRun SL wdb).2.2.map
          (fun e => e.deletedRecords.getD 0)).sum := by
  intro SL
  induction SL with
  | nil => intro wdb; rfl
  | cons st rest ih =>
    intro wdb
    by_cases h : 0 < st.old_records
    · cases dryRun with
      | true => simp [cleanupLoop, h, ih, wouldDeleteEntry]
      | false => simp [cleanupLoop, h, ih, deletedEntry]
    · simp [cleanupLoop, h, ih, noActionEntry]

theorem cleanupLoop_results_symbols (cutoff : ℚ) (dryRun : Bool) :
    ∀ (SL : List SymbolStats) (wdb : List StoredRow),
      ∀ e ∈ (cleanupLoop cutoff dryRun SL wdb).2.2, ∃ st ∈ SL, e.symbol = st.symbol := by
  intro SL
  induction SL with
  | nil => intro wdb e he; simp [cleanupLoop] at he
  | cons st rest ih =>
    intro wdb e he
    by_cases h : 0 < st.old_records
    · cases dryRun with
      | true =>
        simp only [cleanupLoop, h, if_true] at he
        rcases List.mem_cons.mp he with rfl | he'
        · exact ⟨st, List.mem_cons_self st rest, rfl⟩
        · obtain ⟨st', hst', hsym⟩ := ih _ e he'
          exact ⟨st', List.mem_cons_of_mem st hst', hsym⟩
      | false =>
        simp only [cleanupLoop, h, if_true, Bool.false_eq_true, if_false] at he
        rcases List.mem_cons.mp he with rfl | he'
        · exact ⟨st, List.mem_cons_self st rest, rfl⟩
        · obtain ⟨st', hst', hsym⟩ := ih _ e he'
          exact ⟨st', List.mem_cons_of_mem st hst', hsym⟩
    · simp only [cleanupLoop, h, if_false] at he
      rcases List.mem_cons.mp he with rfl | he'
      · exact ⟨st, List.mem_cons_self st rest, rfl⟩
      · obtain ⟨st', hst', hsym⟩ := ih _ e he'
        exact ⟨st', List.mem_cons_of_mem st hst', hsym⟩

theorem mem_groupSymbols {db : List StoredRow} {symbols : List String} {s : String} :
    s ∈ groupSymbols db symbols ↔ (∃ r ∈ db, r.symbol = s) ∧ s ∈ symbols := by
  unfold groupSymbols
  rw [List.mem_insertionSort, List.mem_dedup, List.mem_filter, List.mem_map]
  simp

/-- The rows a live cleanup loop over the stats list keeps: those matching
no stats row that has stale records, or not stale themselves. -/
def keepPred (cutoff : ℚ) (SL : List SymbolStats) (r : StoredRow) : Bool :=
  SL.all (fun st =>
    !(decide (0 < st.old_records) && r.symbol == st.symbol && decide (r.timestamp < cutoff)))

theorem cleanupLoop_live_db (cutoff : ℚ) :
    ∀ (SL : List SymbolStats) (wdb : List StoredRow),
      (cleanupLoop cutoff false SL wdb).1 = wdb.filter (keepPred cutoff SL) := by
  intro SL
  induction SL with
  | nil =>
    intro wdb
    exact (List.filter_eq_self.mpr (fun a _ => rfl)).symm
  | cons st rest ih =>
    intro wdb
    by_cases h : 0 < st.old_records
    · simp only [cleanupLoop, h, if_true, Bool.false_eq_true, if_false]
      rw [ih, List.filter_filter]
      apply List.filter_congr
      intro r _
      have hold : decide (0 < st.old_records) = true := decide_eq_true h
      cases hsym : (r.symbol == st.symbol) <;>
        cases hts : (decide (r.timestamp < cutoff)) <;>
          simp [keepPred, List.all_cons, hold, hsym, hts]
    · simp only [cleanupLoop, h, if_false]
      rw [ih]
      apply List.filter_congr
      intro r _
      have hold : decide (0 < st.old_records) = false := decide_eq_false h
      simp [keepPred, List.all_cons, hold]

theorem keepPred_stats_true_iff (db : List StoredRow) (symbols : List String)
    (cutoff : ℚ) (r : StoredRow) (hr : r ∈ db) :
    keepPred cutoff (countStats db symbols cutoff) r = true ↔
      ¬(r.symbol ∈ symbols ∧ r.timestamp < cutoff) := by
  unfold keepPred
  rw [List.all_eq_true]
  constructor
  · intro h hc
    rcases hc with ⟨hs, ht⟩
    have hm : mkStats db cutoff r.symbol ∈ countStats db symbols cutoff :=
      List.mem_map_of_mem _ (mem_groupSymbols.mpr ⟨⟨r, hr, rfl⟩, hs⟩)
    have hpos : 0 < (mkStats db cutoff r.symbol).old_records := by
      have hmem : r ∈ (db.filter (fun x => x.symbol == r.symbol)).filter
          (fun x => decide (x.timestamp < cutoff)) := by
        rw [List.mem_filter, List.mem_filter]
        exact ⟨⟨hr, by simp⟩, by simp [ht]⟩
      exact List.length_pos_of_mem hmem
    have hthis := h _ hm
    rw [decide_eq_true hpos, decide_eq_true ht] at hthis
    have hsym : (r.symbol == (mkStats db cutoff r.symbol).symbol) = true := by
      simp [mkStats]
    rw [hsym] at hthis
    simp at hthis
  · intro h st hst
    obtain ⟨s, hs, rfl⟩ := List.mem_map.mp hst
    have hs' := mem_groupSymbols.mp hs
    by_cases hsym : r.symbol = s
    · by_cases hts : r.timestamp < cutoff
      · exact absurd ⟨hsym ▸ hs'.2, hts⟩ h
      · simp [mkStats, hts]
    · simp [mkStats, hsym]

theorem keepPred_stats_eq (db : List StoredRow) (symbols : List String)
    (cutoff : ℚ) (r : StoredRow) (hr : r ∈ db) :
    keepPred cutoff (countStats db symbols cutoff) r =
      !(symbols.contains r.symbol && decide (r.timestamp < cutoff)) := by
  rw [Bool.eq_iff_iff, keepPred_stats_true_iff db symbols cutoff r hr]
  simp
  tauto

/-- Claim C4: a live cleanup uses the cutoff `now() - keepDuration` and its
committed table is exactly the original minus the targeted symbols' rows
observed strictly before the cutoff; every row observed at or after the
cutoff survives. -/
theorem cleanup_live_deletes_stale (db : List StoredRow) (symbols : List String)
    (keepHours now : ℚ) (hk : 0 < keepHours) :
    (cleanupOldOptionsData db symbols keepHours false now).2.cutoffTime =
      now - keepHours * 3600000 ∧
    (cleanupOldOptionsData db symbols keepHours false now).1 =
      db.filter (fun r => !(symbols.contains r.symbol &&
        decide (r.timestamp < now - keepHours * 3600000))) ∧
    ∀ r ∈ db, now - keepHours * 3600000 ≤ r.timestamp →
      r ∈ (cleanupOldOptionsData db symbols keepHours false now).1 := by
  have hmain : (cleanupOldOptionsData db symbols keepHours false now).1 =
      db.filter (fun r => !(symbols.contains r.symbol &&
        decide (r.timestamp < now - keepHours * 3600000))) := by
    simp only [cleanupOldOptionsData, Bool.false_eq_true, if_false]
    rw [cleanupLoop_live_db]
    apply List.filter_congr
    intro r hr
    exact keepPred_stats_eq db symbols (now - keepHours * 3600000) r hr
  refine ⟨rfl, hmain, ?_⟩
  intro r hr hts
  rw [hmain]
  rw [List.mem_filter]
  refine ⟨hr, ?_⟩
  rw [decide_eq_false (not_lt.mpr hts)]
  simp

/-- Witness for `cleanup_live_deletes_stale` at a one-row table with a
positive retention window. -/
theorem cleanup_live_deletes_stale_witness :
    (cleanupOldOptionsData [rowA] ["AAPL"] 1 false 3600001).2.cutoffTime =
      3600001 - 1 * 3600000 ∧
    (cleanupOldOptionsData [rowA] ["AAPL"] 1 false 3600001).1 =
      [rowA].filter (fun r => !(["AAPL"].contains r.symbol &&
        decide (r.timestamp < 3600001 - 1 * 3600000))) ∧
    ∀ r ∈ [rowA], (3600001 : ℚ) - 1 * 3600000 ≤ r.timestamp →
      r ∈ (cleanupOldOptionsData [rowA] ["AAPL"] 1 false 3600001).1 :=
  cleanup_live_deletes_stale [rowA] ["AAPL"] 1 3600001 (by norm_num)

/-- Claim C1 (amended): in live mode `totalDeleted` is the sum of the per-symbol
reported deleted counts; in dry-run mode the returned `totalDeleted` is
always 0 (would-be deletion counts appear only as per-symbol `oldRecords`),
so dry-run never contributes to `totalDeleted`. -/
theorem totalDeleted_by_mode (db : List StoredRow) (symbols : List String)
    (keepHours now : ℚ) (dryRun : Bool) :
    (dryRun = false →
      (cleanupOldOptionsData db symbols keepHours dryRun now).2.totalDeleted =
        (((cleanupOldOptionsData db symbols keepHours dryRun now).2.results).map
          (fun e => e.deletedRecords.getD 0)).sum) ∧
    (dryRun = true →
      (cleanupOldOptionsData db symbols keepHours dryRun now).2.totalDeleted = 0) := by
  constructor
  · intro _
    simp only [cleanupOldOptionsData]
    exact cleanupLoop_totalDeleted _ _ _ _
  · intro hd
    subst hd
    simp [cleanupOldOptionsData, cleanupLoop_dry]

/-- Witness for `totalDeleted_by_mode` at a concrete live run. -/
theorem totalDeleted_by_mode_witness :
    (cleanupOldOptionsData [rowA] ["AAPL"] 1 false 3600001).2.totalDeleted =
      (((cleanupOldOptionsData [rowA] ["AAPL"] 1 false 3600001).2.results).map
        (fun e => e.deletedRecords.getD 0)).sum :=
  (totalDeleted_by_mode [rowA] ["AAPL"] 1 3600001 false).1 rfl

/-- Claim C10: `symbolsProcessed` is the number of requested symbols, while the
per-symbol results only cover symbols that actually have stored rows, so a
requested symbol without rows contributes no entry. -/
theorem cleanup_symbolsProcessed_counts (db : List StoredRow) (symbols : List String)
    (keepHours now : ℚ) (dryRun : Bool) :
    (cleanupOldOptionsData db symbols keepHours dryRun now).2.symbolsProcessed =
      symbols.length ∧
    ∀ e ∈ (cleanupOldOptionsData db symbols keepHours dryRun now).2.results,
      ∃ r ∈ db, r.symbol = e.symbol := by
  refine ⟨rfl, ?_⟩
  intro e he
  have he' : e ∈ (cleanupLoop (now - keepHours * 3600000) dryRun
      (countStats db symbols (now - keepHours * 3600000)) db).2.2 := he
  obtain ⟨st, hst, hsym⟩ := cleanupLoop_results_symbols _ _ _ _ e he'
  obtain ⟨s, hs, rfl⟩ := List.mem_map.mp hst
  obtain ⟨⟨r, hr, hrs⟩, _⟩ := mem_groupSymbols.mp hs
  exact ⟨r, hr, by rw [hrs, hsym]; rfl⟩

/-- Claim C5: a dry-run cleanup leaves the table unchanged (the transaction is
rolled back unconditionally) and reports each processed symbol as
`would_delete` with the counts deletion would have produced when it has at
least one stale record, and as `no_action` when it has none. -/
theorem cleanup_dryRun_preview (db : List StoredRow) (symbols : List String)
    (keepHours now : ℚ) :
    (cleanupOldOptionsData db symbols keepHours true now).1 = db ∧
    ∀ e ∈ (cleanupOldOptionsData db symbols keepHours true now).2.results,
      (0 < staleCount db (now - keepHours * 3600000) e.symbol →
        e.action = "would_delete" ∧
        e.oldRecords = some (staleCount db (now - keepHours * 3600000) e.symbol) ∧
        e.keptRecords = totalCount db e.symbol -
          staleCount db (now - keepHours * 3600000) e.symbol) ∧
      (staleCount db (now - keepHours * 3600000) e.symbol = 0 →
        e.action = "no_action" ∧ e.deletedRecords = some 0 ∧
        e.keptRecords = totalCount db e.symbol) := by
  refine ⟨rfl, ?_⟩
  intro e he
  have hres : (cleanupOldOptionsData db symbols keepHours true now).2.results =
      (countStats db symbols (now - keepHours * 3600000)).map
        (fun st => if 0 < st.old_records then wouldDeleteEntry st else noActionEntry st) := by
    show (cleanupLoop (now - keepHours * 3600000) true
        (countStats db symbols (now - keepHours * 3600000)) db).2.2 = _
    rw [cleanupLoop_dry]
  rw [hres] at he
  obtain ⟨st, hst, rfl⟩ := List.mem_map.mp he
  obtain ⟨s, hs, rfl⟩ := List.mem_map.mp hst
  by_cases h : 0 < (mkStats db (now - keepHours * 3600000) s).old_records
  · rw [if_pos h]
    constructor
    · intro _
      exact ⟨rfl, rfl, rfl⟩
    · intro h0
      exact absurd h0 (Nat.pos_iff_ne_zero.mp h)
  · rw [if_neg h]
    constructor
    · intro hpos
      exact absurd hpos h
    · intro _
      exact ⟨rfl, rfl, rfl⟩

/-- The counting-query row of the concrete one-row table. -/
def statA : SymbolStats :=
  { symbol := "AAPL", total_records := 1, old_records := 1,
    oldest_timestamp := some 0, newest_timestamp := some 0 }

theorem countStats_concrete :
    countStats [rowA] ["AAPL", "MSFT"] (3600001 - 1 * 3600000) = [statA] := by
  have hckey : (3600001 : ℚ) - 1 * 3600000 = 1 := by norm_num
  rw [hckey]
  decide

theorem cleanup_dry_results_concrete :
    (cleanupOldOptionsData [rowA] ["AAPL", "MSFT"] 1 true 3600001).2.results =
      [wouldDeleteEntry statA] := by
  show (cleanupLoop ((3600001 : ℚ) - 1 * 3600000) true
      (countStats [rowA] ["AAPL", "MSFT"] ((3600001 : ℚ) - 1 * 3600000)) [rowA]).2.2 = _
  rw [cleanupLoop_dry, countStats_concrete]
  rfl

/-- Witness for `cleanup_dryRun_preview`: the dry run over the one-row
table keeps the table and reports the symbol as `would_delete`. -/
theorem cleanup_dryRun_preview_witness :
    (cleanupOldOptionsData [rowA] ["AAPL", "MSFT"] 1 true 3600001).1 = [rowA] ∧
    ((wouldDeleteEntry statA).action = "would_delete" ∧
     (wouldDeleteEntry statA).oldRecords =
       some (staleCount [rowA] (3600001 - 1 * 3600000) (wouldDeleteEntry statA).symbol) ∧
     (wouldDeleteEntry statA).keptRecords =
       totalCount [rowA] (wouldDeleteEntry statA).symbol -
         staleCount [rowA] (3600001 - 1 * 3600000) (wouldDeleteEntry statA).symbol) := by
  have happ := cleanup_dryRun_preview [rowA] ["AAPL", "MSFT"] 1 3600001
  refine ⟨happ.1, ?_⟩
  have hmem : wouldDeleteEntry statA ∈
      (cleanupOldOptionsData [rowA] ["AAPL", "MSFT"] 1 true 3600001).2.results := by
    rw [cleanup_dry_results_concrete]
    exact List.mem_singleton.mpr rfl
  refine (happ.2 _ hmem).1 ?_
  show 0 < staleCount [rowA] ((3600001 : ℚ) - 1 * 3600000) "AAPL"
  have hckey : (3600001 : ℚ) - 1 * 3600000 = 1 := by norm_num
  rw [hckey]
  decide

/-- Witness for `cleanup_symbolsProcessed_counts`: two requested symbols,
one of which has no rows; the results array has a single entry whose
symbol is stored. -/
theorem cleanup_symbolsProcessed_counts_witness :
    (cleanupOldOptionsData [rowA] ["AAPL", "MSFT"] 1 true 3600001).2.symbolsProcessed = 2 ∧
    ∃ r ∈ [rowA], r.symbol = (wouldDeleteEntry statA).symbol := by
  have happ := cleanup_symbolsProcessed_counts [rowA] ["AAPL", "MSFT"] 1 3600001 true
  refine ⟨happ.1, ?_⟩
  apply happ.2
  rw [cleanup_dry_results_concrete]
  exact List.mem_singleton.mpr rfl

/-- Counterexample to C1 as stated: in a dry run over a table with one
stale record, the returned `totalDeleted` is 0 while the sum of per-symbol
would-be deletions is 1, so `totalDeleted` is not the dry-run would-delete
sum. -/
theorem totalDeleted_dryRun_cx :
    (cleanupOldOptionsData [rowA] ["AAPL", "MSFT"] 1 true 3600001).2.totalDeleted = 0 ∧
    (((cleanupOldOptionsData [rowA] ["AAPL", "MSFT"] 1 true 3600001).2.results).map
      (fun e => e.oldRecords.getD 0)).sum = 1 := by
  constructor
  · show (cleanupLoop ((3600001 : ℚ) - 1 * 3600000) true
        (countStats [rowA] ["AAPL", "MSFT"] ((3600001 : ℚ) - 1 * 3600000)) [rowA]).2.1 = 0
    rw [cleanupLoop_dry]
  · rw [cleanup_dry_results_concrete]
    rfl
